import Mathlib

/-!
Verification of the Engram local trace store (`mem0-server/trace_store.py`).

The development shallowly embeds the tracing subsystem: the `Span` record and
its methods, the `trace_span` scope lifecycle (context-manager semantics made
explicit as a function over an outcome of the traced body), the DuckDB
persistence layer (modelled as a list of rows plus an explicit backend-health
value), and the analytics layer (`query_traces`, `get_stats` with
`PERCENTILE_CONT` linear interpolation, `cleanup_old_traces`).

Python `uuid.uuid4()` calls are modelled by explicit fresh-identifier
parameters (uuid strings are never empty, so Python's `x or uuid4()`
truthiness test coincides with `Option.getD`); wall-clock and monotonic-clock
readings are explicit parameters; the traced body is a list of handle actions
plus an outcome (normal value or raised exception), which is exactly the
ingestion API the scope exposes.
-/

namespace Engram

/-- Scalar attribute values (string/int/float/bool), floats as rationals. -/
inductive AttrVal where
  | vstr : String → AttrVal
  | vint : Int → AttrVal
  | vfloat : ℚ → AttrVal
  | vbool : Bool → AttrVal
deriving DecidableEq, Repr

/-- Attribute mapping, insertion-ordered like a Python dict. -/
abbrev Attrs := List (String × AttrVal)

/-- Python dict assignment `m[k] = v`: replace in place if the key exists,
else append. -/
def setKey (m : Attrs) (k : String) (v : AttrVal) : Attrs :=
  if m.any (fun p => p.1 = k) then
    m.map (fun p => if p.1 = k then (k, v) else p)
  else
    m ++ [(k, v)]

/-- A raised Python exception: its class name and its `str(...)` rendering
(which may be the empty string, e.g. `str(ValueError()) = ""`). -/
structure Exc where
  ty : String
  msg : String
deriving DecidableEq, Repr

/-- The `Span` object of `trace_store.py` (uuid strings modelled as `Nat`,
timestamps as `Nat` wall-clock ticks, `perf_counter` readings as `ℚ`). -/
structure Span where
  span_id : Nat
  trace_id : Nat
  parent_span_id : Option Nat
  name : String
  start_time : Nat
  end_time : Option Nat
  duration_ms : Option ℚ
  status : String
  error_message : Option String
  attributes : Attrs
  start_perf : ℚ
deriving DecidableEq, Repr

/-- `Span.__init__`: fresh `span_id`, `trace_id or uuid4()`, default status
`"OK"`, no end time or duration yet, `attributes or {}`. -/
def mkSpan (name : String) (trace_id : Option Nat) (parent_span_id : Option Nat)
    (attributes : Option Attrs) (freshSpanId freshTraceId : Nat)
    (wallNow : Nat) (perfNow : ℚ) : Span :=
  { span_id := freshSpanId
    trace_id := trace_id.getD freshTraceId
    parent_span_id := parent_span_id
    name := name
    start_time := wallNow
    end_time := none
    duration_ms := none
    status := "OK"
    error_message := none
    attributes := attributes.getD []
    start_perf := perfNow }

/-- `Span.set_attribute`: stores the value unless it is `None`. -/
def Span.set_attribute (s : Span) (k : String) (v : Option AttrVal) : Span :=
  match v with
  | none => s
  | some v => { s with attributes := setKey s.attributes k v }

/-- `Span.set_status`: always overwrites `status`; updates `error_message`
only when `message` is truthy (not `None` and not `""`). -/
def Span.set_status (s : Span) (status : String) (message : Option String) : Span :=
  let s1 := { s with status := status }
  match message with
  | none => s1
  | some m => if m = "" then s1 else { s1 with error_message := some m }

/-- `Span.record_exception`: status `"ERROR"`, `error_message = str(e)`, and
the exception type and message stored as attributes. -/
def Span.record_exception (s : Span) (e : Exc) : Span :=
  { s with
    status := "ERROR"
    error_message := some e.msg
    attributes :=
      setKey (setKey s.attributes "exception.type" (.vstr e.ty))
        "exception.message" (.vstr e.msg) }

/-- Health of the persistence backend when a write is attempted:
connected, no connection (driver missing / init failed), or the INSERT
itself raises. -/
inductive Backend where
  | ok
  | noConn
  | insertFail
deriving DecidableEq, Repr

/-- `Span.end`: set `end_time` from the wall clock and compute `duration_ms`
from the monotonic clock. (`end` is a Lean keyword, hence `endSpan`.) -/
def Span.endSpan (s : Span) (wallNow : Nat) (perfNow : ℚ) : Span :=
  { s with
    end_time := some wallNow
    duration_ms := some ((perfNow - s.start_perf) * 1000) }

/-- `Span._save`: append the row when tracing is enabled and the backend is
healthy; on a missing connection the row is silently dropped; on an INSERT
failure the error is logged and the row dropped. Never raises. -/
def Span.save (s : Span) (enabled : Bool) (be : Backend)
    (db : List Span) (log : List String) : List Span × List String :=
  if enabled then
    match be with
    | .ok => (db ++ [s], log)
    | .noConn => (db, log ++ ["DuckDB not installed. Traces will not be stored."])
    | .insertFail => (db, log ++ ["Failed to save span"])
  else (db, log)

/-- One call the traced body may make on the span handle. -/
inductive SpanAction where
  | setAttr (k : String) (v : Option AttrVal)
  | setStatus (st : String) (msg : Option String)
  | recordExc (e : Exc)
deriving DecidableEq, Repr

/-- Apply one handle call. -/
def applyAction (s : Span) (a : SpanAction) : Span :=
  match a with
  | .setAttr k v => s.set_attribute k v
  | .setStatus st msg => s.set_status st msg
  | .recordExc e => s.record_exception e

/-- Apply the body's handle calls in order. -/
def applyActions (s : Span) (as : List SpanAction) : Span :=
  as.foldl applyAction s

/-- Mutable module state seen by `trace_span`: the (process-wide, shared)
`_current_span` global, the spans table, and the log. -/
structure TraceCtx where
  currentSpan : Option Span
  db : List Span
  log : List String
deriving DecidableEq, Repr

/-- The opening half of `trace_span` (lines 188-201): read parent and trace
ids from the shared `_current_span` global, build the span, and install it as
the new current span. Returns the new span and the updated global. -/
def spanOpen (current : Option Span) (name : String) (attributes : Option Attrs)
    (freshSpanId freshTraceId : Nat) (wallNow : Nat) (perfNow : ℚ) :
    Span × Option Span :=
  let parent_id := current.map (fun s => s.span_id)
  let trace_id := current.map (fun s => s.trace_id)
  let span := mkSpan name trace_id parent_id attributes
    freshSpanId freshTraceId wallNow perfNow
  (span, some span)

/-- The status step of `trace_span` (the `try`/`except` arms, lines
203-209): on normal completion `set_status("OK")`; on an exception
`record_exception` when the flag is set, else leave the span alone. -/
def statusWrap (s : Span) (outcome : Except Exc α) (record_exception : Bool) :
    Span :=
  match outcome with
  | .ok _ => s.set_status "OK" none
  | .error e => if record_exception then s.record_exception e else s

/-- The whole `trace_span` context manager for one scope: open the span,
run the body (its handle calls, then its outcome), set status on normal
completion or record the exception, and in the `finally` block end the span,
persist it and restore the previous current span. The body's outcome is
returned unchanged (a raised error is re-raised). -/
def traceSpan (name : String) (attributes : Option Attrs)
    (record_exception : Bool) (freshSpanId freshTraceId : Nat)
    (wallStart : Nat) (perfStart : ℚ)
    (actions : List SpanAction) (outcome : Except Exc α)
    (wallEnd : Nat) (perfEnd : ℚ)
    (enabled : Bool) (be : Backend) (st : TraceCtx) :
    Except Exc α × TraceCtx :=
  let opened := spanOpen st.currentSpan name attributes
    freshSpanId freshTraceId wallStart perfStart
  let previous := st.currentSpan
  let span1 := applyActions opened.1 actions
  let span2 := statusWrap span1 outcome record_exception
  let span3 := span2.endSpan wallEnd perfEnd
  let saved := span3.save enabled be st.db st.log
  (outcome, { currentSpan := previous, db := saved.1, log := saved.2 })

/-- The span value that one scope finalizes and hands to `_save`: the opened
span, after the body's handle calls, the status wrap-up, and `Span.end`. -/
def finalSpan (name : String) (attrs : Option Attrs) (recE : Bool)
    (fS fT wS : Nat) (pS : ℚ) (acts : List SpanAction)
    (outcome : Except Exc α) (wE : Nat) (pE : ℚ) (current : Option Span) :
    Span :=
  (statusWrap (applyActions (spanOpen current name attrs fS fT wS pS).1 acts)
    outcome recE).endSpan wE pE

/-- Health of the backend as seen by a read: no connection, the query raises
(malformed SQL or unreachable store), or it succeeds with rows. -/
inductive ReadBackend (ρ : Type) where
  | noConn
  | fails (msg : String)
  | ok (rows : List ρ)
deriving DecidableEq, Repr

/-- `query_traces`: returns the rows on success; returns `[]` when there is
no connection; catches a failing query, logs it, and returns `[]`. It never
propagates an error to the caller. -/
def query_traces (be : ReadBackend ρ) (log : List String) :
    List ρ × List String :=
  match be with
  | .noConn => ([], log)
  | .fails msg => ([], log ++ ["Query failed: " ++ msg])
  | .ok rows => (rows, log)

/-- Linear interpolation at fractional rank `h` into the sorted list `s`
(SQL `PERCENTILE_CONT` body): with `i = ⌊h⌋`, interpolate between `s[i]` and
`s[i+1]`; at the top rank return the last element. -/
def percAt (s : List ℚ) (h : ℚ) : ℚ :=
  let n := s.length
  let i := (⌊h⌋).toNat
  if i + 1 < n then
    s.getD i 0 + (h - (i : ℚ)) * (s.getD (i + 1) 0 - s.getD i 0)
  else
    s.getD (n - 1) 0

/-- `PERCENTILE_CONT(p) WITHIN GROUP (ORDER BY x)` over the sorted sample
`s`: linear interpolation at rank `p * (n - 1)`. -/
def percentileCont (s : List ℚ) (p : ℚ) : ℚ :=
  percAt s (p * ((s.length : ℚ) - 1))

/-- SQL `MAX` over a list of durations (0 on the empty list, where SQL
returns NULL). -/
def listMax : List ℚ → ℚ
  | [] => 0
  | [x] => x
  | x :: y :: t => max x (listMax (y :: t))

/-- The record returned by `get_stats`. -/
structure Stats where
  total_spans : Nat
  error_count : Nat
  avg_duration_ms : ℚ
  p50_ms : ℚ
  p95_ms : ℚ
  p99_ms : ℚ
  max_duration_ms : ℚ
deriving DecidableEq, Repr

/-- `get_stats` over the spans in the window, each contributing its `status`
and `duration_ms`: count, error count, mean, interpolated percentiles over
the sorted durations, and max. -/
def get_stats (spans : List (String × ℚ)) : Stats :=
  let durs := spans.map (fun r => r.2)
  let sorted := List.insertionSort (· ≤ ·) durs
  { total_spans := spans.length
    error_count := (spans.filter (fun r => r.1 = "ERROR")).length
    avg_duration_ms :=
      if spans.length = 0 then 0 else durs.sum / (spans.length : ℚ)
    p50_ms := percentileCont sorted (1 / 2)
    p95_ms := percentileCont sorted (19 / 20)
    p99_ms := percentileCont sorted (99 / 100)
    max_duration_ms := listMax durs }

/-- `cleanup_old_traces`: with a live connection, `DELETE FROM spans WHERE
start_time < cutoff` (cutoff = now minus the retention window) and log;
without one, do nothing. -/
def cleanup_old_traces (conn_ok : Bool) (cutoff : Nat)
    (db : List Span) (log : List String) : List Span × List String :=
  if conn_ok then
    (db.filter (fun s => !decide (s.start_time < cutoff)),
      log ++ ["Cleaned up traces older than retention period"])
  else (db, log)

/-! ### Basic frame lemmas about the span methods -/

/-- `set_attribute` as a plain record update. -/
theorem set_attribute_eq (s : Span) (k : String) (v : Option AttrVal) :
    s.set_attribute k v =
      { s with attributes :=
          (match v with
          | none => s.attributes
          | some v => setKey s.attributes k v) } := by
  cases v <;> rfl

/-- `set_status` as a plain record update: the status is always overwritten,
the message is stored only when truthy. -/
theorem set_status_eq (s : Span) (status : String) (m : Option String) :
    s.set_status status m =
      { s with
        status := status
        error_message := (if m.getD "" = "" then s.error_message else m) } := by
  cases m with
  | none => simp [Span.set_status]
  | some x =>
      by_cases hx : x = "" <;> simp [Span.set_status, hx]

/-- A single handle call never touches identity or timing fields. -/
theorem applyAction_fields (s : Span) (a : SpanAction) :
    (applyAction s a).span_id = s.span_id ∧
    (applyAction s a).trace_id = s.trace_id ∧
    (applyAction s a).parent_span_id = s.parent_span_id ∧
    (applyAction s a).start_time = s.start_time ∧
    (applyAction s a).end_time = s.end_time ∧
    (applyAction s a).duration_ms = s.duration_ms ∧
    (applyAction s a).start_perf = s.start_perf := by
  cases a with
  | setAttr k v => simp [applyAction, set_attribute_eq]
  | setStatus st msg => simp [applyAction, set_status_eq]
  | recordExc e => simp [applyAction, Span.record_exception]

/-- The body's handle calls never touch identity or timing fields. -/
theorem applyActions_fields (s : Span) (as : List SpanAction) :
    (applyActions s as).span_id = s.span_id ∧
    (applyActions s as).trace_id = s.trace_id ∧
    (applyActions s as).parent_span_id = s.parent_span_id ∧
    (applyActions s as).start_time = s.start_time ∧
    (applyActions s as).end_time = s.end_time ∧
    (applyActions s as).duration_ms = s.duration_ms ∧
    (applyActions s as).start_perf = s.start_perf := by
  induction as generalizing s with
  | nil => simp [applyActions]
  | cons a t ih =>
      obtain ⟨h1, h2, h3, h4, h5, h6, h7⟩ := applyAction_fields s a
      obtain ⟨g1, g2, g3, g4, g5, g6, g7⟩ := ih (applyAction s a)
      simp only [applyActions, List.foldl_cons] at *
      exact ⟨g1.trans h1, g2.trans h2, g3.trans h3, g4.trans h4,
        g5.trans h5, g6.trans h6, g7.trans h7⟩

/-- The status wrap-up of `trace_span` (set OK, record the exception, or do
nothing) also never touches identity or timing fields. -/
theorem statusWrap_fields (s : Span) (outcome : Except Exc α) (recE : Bool) :
    (statusWrap s outcome recE).span_id = s.span_id ∧
    (statusWrap s outcome recE).trace_id = s.trace_id ∧
    (statusWrap s outcome recE).parent_span_id = s.parent_span_id ∧
    (statusWrap s outcome recE).start_time = s.start_time ∧
    (statusWrap s outcome recE).end_time = s.end_time ∧
    (statusWrap s outcome recE).duration_ms = s.duration_ms ∧
    (statusWrap s outcome recE).start_perf = s.start_perf := by
  cases outcome with
  | ok a => simp [statusWrap, set_status_eq]
  | error e => cases recE <;> simp [statusWrap, Span.record_exception]

/-- Unfolding of one whole scope: `trace_span` returns the body's outcome
unchanged, restores the previous current span, and feeds exactly the
finalized span to `_save`. -/
theorem traceSpan_eq {α : Type} (name : String) (attrs : Option Attrs)
    (recE : Bool) (fS fT wS : Nat) (pS : ℚ) (acts : List SpanAction)
    (outcome : Except Exc α) (wE : Nat) (pE : ℚ)
    (enabled : Bool) (be : Backend) (st : TraceCtx) :
    traceSpan name attrs recE fS fT wS pS acts outcome wE pE enabled be st
      = (outcome,
          { currentSpan := st.currentSpan
            db := ((finalSpan name attrs recE fS fT wS pS acts outcome wE pE
              st.currentSpan).save enabled be st.db st.log).1
            log := ((finalSpan name attrs recE fS fT wS pS acts outcome wE pE
              st.currentSpan).save enabled be st.db st.log).2 }) := rfl

/-- Identity and timing fields of the finalized span: ids fixed at open
time from the current span (or fresh), timing from the clock readings. -/
theorem finalSpan_fields {α : Type} (name : String) (attrs : Option Attrs)
    (recE : Bool) (fS fT wS : Nat) (pS : ℚ) (acts : List SpanAction)
    (outcome : Except Exc α) (wE : Nat) (pE : ℚ) (current : Option Span) :
    (finalSpan name attrs recE fS fT wS pS acts outcome wE pE current).span_id
      = fS ∧
    (finalSpan name attrs recE fS fT wS pS acts outcome wE pE current).trace_id
      = (current.map fun s => s.trace_id).getD fT ∧
    (finalSpan name attrs recE fS fT wS pS acts outcome wE pE
      current).parent_span_id = current.map (fun s => s.span_id) ∧
    (finalSpan name attrs recE fS fT wS pS acts outcome wE pE
      current).start_time = wS ∧
    (finalSpan name attrs recE fS fT wS pS acts outcome wE pE current).end_time
      = some wE ∧
    (finalSpan name attrs recE fS fT wS pS acts outcome wE pE
      current).duration_ms = some ((pE - pS) * 1000) := by
  obtain ⟨a1, a2, a3, a4, a5, a6, a7⟩ :=
    applyActions_fields (spanOpen current name attrs fS fT wS pS).1 acts
  obtain ⟨b1, b2, b3, b4, b5, b6, b7⟩ :=
    statusWrap_fields (applyActions (spanOpen current name attrs fS fT wS pS).1
      acts) outcome recE
  refine ⟨?_, ?_, ?_, ?_, ?_, ?_⟩ <;>
    simp only [finalSpan, Span.endSpan] <;>
    simp only [b1, b2, b3, b4, b7, a1, a2, a3, a4, a7] <;>
    simp [spanOpen, mkSpan]

/-- On a normal exit the finalized span's status is `"OK"`. -/
theorem finalSpan_ok_status {α : Type} (name : String) (attrs : Option Attrs)
    (recE : Bool) (fS fT wS : Nat) (pS : ℚ) (acts : List SpanAction) (a : α)
    (wE : Nat) (pE : ℚ) (current : Option Span) :
    (finalSpan name attrs recE fS fT wS pS acts (Except.ok a) wE pE
      current).status = "OK" := by
  simp [finalSpan, Span.endSpan, statusWrap, set_status_eq]

/-- When the body raises `e` and exception recording is on, the finalized
span carries status `"ERROR"` and `error_message = str(e)`. -/
theorem finalSpan_error_status (name : String)
    (attrs : Option Attrs) (fS fT wS : Nat) (pS : ℚ)
    (acts : List SpanAction) (e : Exc) (wE : Nat) (pE : ℚ)
    (current : Option Span) :
    (finalSpan name attrs true fS fT wS pS acts
      (Except.error e : Except Exc Unit) wE pE current).status = "ERROR" ∧
    (finalSpan name attrs true fS fT wS pS acts
      (Except.error e : Except Exc Unit) wE pE current).error_message
      = some e.msg := by
  constructor <;>
    simp [finalSpan, Span.endSpan, statusWrap, Span.record_exception]

/-! ### The claims -/

/-- C1: a scope opened with no current span starts a new trace — the
persisted row carries the freshly generated trace id `fT` and no parent —
while a scope opened while span `a` is current inherits `a.trace_id` and is
parented under `a.span_id`. -/
theorem C1_parent_and_trace_linkage {α : Type} (name : String)
    (attrs : Option Attrs) (recE : Bool) (fS fT wS : Nat) (pS : ℚ)
    (acts : List SpanAction) (outcome : Except Exc α) (wE : Nat) (pE : ℚ)
    (a : Span) (db : List Span) (log : List String) :
    (∃ row : Span,
      (traceSpan name attrs recE fS fT wS pS acts outcome wE pE true .ok
        ⟨none, db, log⟩).2.db = db ++ [row] ∧
      row.trace_id = fT ∧ row.parent_span_id = none) ∧
    (∃ row : Span,
      (traceSpan name attrs recE fS fT wS pS acts outcome wE pE true .ok
        ⟨some a, db, log⟩).2.db = db ++ [row] ∧
      row.trace_id = a.trace_id ∧ row.parent_span_id = some a.span_id) := by
  constructor
  · obtain ⟨h1, h2, h3, h4, h5, h6⟩ :=
      finalSpan_fields name attrs recE fS fT wS pS acts outcome wE pE none
    refine ⟨finalSpan name attrs recE fS fT wS pS acts outcome wE pE none,
      ?_, ?_, ?_⟩
    · rw [traceSpan_eq]; simp [Span.save]
    · simpa using h2
    · simpa using h3
  · obtain ⟨h1, h2, h3, h4, h5, h6⟩ :=
      finalSpan_fields name attrs recE fS fT wS pS acts outcome wE pE (some a)
    refine ⟨finalSpan name attrs recE fS fT wS pS acts outcome wE pE (some a),
      ?_, ?_, ?_⟩
    · rw [traceSpan_eq]; simp [Span.save]
    · simpa using h2
    · simpa using h3

/-- C2: however the traced body exits (any outcome, normal or raised), the
scope finalizes the span exactly once: exactly one row is appended, it
carries the computed end time and monotonic duration and the wrapped-up
status and error message, the body's outcome is returned unchanged, and the
previously current span is restored. -/
theorem C2_finalize_exactly_once {α : Type} (name : String)
    (attrs : Option Attrs) (recE : Bool) (fS fT wS : Nat) (pS : ℚ)
    (acts : List SpanAction) (outcome : Except Exc α) (wE : Nat) (pE : ℚ)
    (st : TraceCtx) :
    (traceSpan name attrs recE fS fT wS pS acts outcome wE pE true .ok
      st).2.currentSpan = st.currentSpan ∧
    (traceSpan name attrs recE fS fT wS pS acts outcome wE pE true .ok
      st).1 = outcome ∧
    ∃ row : Span,
      (traceSpan name attrs recE fS fT wS pS acts outcome wE pE true .ok
        st).2.db = st.db ++ [row] ∧
      row.end_time = some wE ∧
      row.duration_ms = some ((pE - pS) * 1000) ∧
      row.status = (statusWrap (applyActions
        (spanOpen st.currentSpan name attrs fS fT wS pS).1 acts) outcome
        recE).status ∧
      row.error_message = (statusWrap (applyActions
        (spanOpen st.currentSpan name attrs fS fT wS pS).1 acts) outcome
        recE).error_message := by
  obtain ⟨h1, h2, h3, h4, h5, h6⟩ :=
    finalSpan_fields name attrs recE fS fT wS pS acts outcome wE pE
      st.currentSpan
  refine ⟨by rw [traceSpan_eq], by rw [traceSpan_eq],
    finalSpan name attrs recE fS fT wS pS acts outcome wE pE st.currentSpan,
    ?_, h5, h6, ?_, ?_⟩
  · rw [traceSpan_eq]; simp [Span.save]
  · simp [finalSpan, Span.endSpan]
  · simp [finalSpan, Span.endSpan]

/-- C3 counterexample: Python renders `ValueError()` as the empty string, so
a scope whose body raises such an error persists `status = "ERROR"` but an
EMPTY `error_message` — the claimed "non-empty error_message" fails (the
error is still re-raised unchanged). -/
theorem C3_cex_empty_error_message :
    ((traceSpan "op" none true 1 101 0 0 []
        (Except.error ⟨"ValueError", ""⟩ : Except Exc Unit) 1 1 true .ok
        ⟨none, [], []⟩).2.db.map fun r => (r.status, r.error_message))
      = [("ERROR", some "")] ∧
    (traceSpan "op" none true 1 101 0 0 []
        (Except.error ⟨"ValueError", ""⟩ : Except Exc Unit) 1 1 true .ok
        ⟨none, [], []⟩).1 = Except.error ⟨"ValueError", ""⟩ := by
  constructor <;> rfl

/-- C3 amended: a scope (with exception recording on, the default) whose
body raises `e` persists a span with `status = "ERROR"` and
`error_message = str(e)` — which is empty exactly when `e`'s message is —
and the same error is re-raised to the caller, never swallowed. -/
theorem C3_error_recorded_and_reraised {α : Type} (name : String)
    (attrs : Option Attrs) (fS fT wS : Nat) (pS : ℚ)
    (acts : List SpanAction) (e : Exc) (wE : Nat) (pE : ℚ) (st : TraceCtx) :
    (traceSpan name attrs true fS fT wS pS acts
      (Except.error e : Except Exc α) wE pE true .ok st).1
      = Except.error e ∧
    ∃ row : Span,
      (traceSpan name attrs true fS fT wS pS acts
        (Except.error e : Except Exc α) wE pE true .ok st).2.db
        = st.db ++ [row] ∧
      row.status = "ERROR" ∧ row.error_message = some e.msg := by
  refine ⟨by rw [traceSpan_eq],
    finalSpan name attrs true fS fT wS pS acts
      (Except.error e : Except Exc α) wE pE st.currentSpan, ?_, ?_, ?_⟩
  · rw [traceSpan_eq]; simp [Span.save]
  · simp [finalSpan, Span.endSpan, statusWrap, Span.record_exception]
  · simp [finalSpan, Span.endSpan, statusWrap, Span.record_exception]

/-- C4 counterexample: the status transition is not one-way. The body sets
`status = "ERROR"` (with a message) and then returns normally; line 205's
`span.set_status("OK")` reverts the status, and the persisted row reads
`status = "OK"` (the error message survives). -/
theorem C4_cex_error_status_reverts_to_ok :
    (applyActions (spanOpen none "op" none 1 101 0 0).1
      [SpanAction.setStatus "ERROR" (some "boom")]).status = "ERROR" ∧
    ((traceSpan "op" none true 1 101 0 0
        [SpanAction.setStatus "ERROR" (some "boom")]
        (Except.ok () : Except Exc Unit) 1 1 true .ok
        ⟨none, [], []⟩).2.db.map fun r => (r.status, r.error_message))
      = [("OK", some "boom")] := by
  constructor <;> rfl

/-- C4 amended: `set_status` overwrites the status unconditionally, so a
scope that exits normally always persists `status = "OK"`, even when
`"ERROR"` was set during the body (the stored error message is retained);
`end_time` and `duration_ms` are still unset during the whole body and are
finalized exactly once, at scope exit. -/
theorem C4_status_overwritten_finalize_once {α : Type} (name : String)
    (attrs : Option Attrs) (recE : Bool) (fS fT wS : Nat) (pS : ℚ)
    (acts : List SpanAction) (a : α) (wE : Nat) (pE : ℚ) (st : TraceCtx)
    (s : Span) (m : Option String) :
    ((s.set_status "ERROR" m).set_status "OK" none).status = "OK" ∧
    ((s.set_status "ERROR" m).set_status "OK" none).error_message
      = (s.set_status "ERROR" m).error_message ∧
    (applyActions (spanOpen st.currentSpan name attrs fS fT wS pS).1
      acts).end_time = none ∧
    (applyActions (spanOpen st.currentSpan name attrs fS fT wS pS).1
      acts).duration_ms = none ∧
    ∃ row : Span,
      (traceSpan name attrs recE fS fT wS pS acts (Except.ok a) wE pE true
        .ok st).2.db = st.db ++ [row] ∧
      row.status = "OK" ∧ row.end_time = some wE ∧
      row.duration_ms = some ((pE - pS) * 1000) := by
  obtain ⟨h1, h2, h3, h4, h5, h6⟩ :=
    finalSpan_fields name attrs recE fS fT wS pS acts (Except.ok a) wE pE
      st.currentSpan
  obtain ⟨a1, a2, a3, a4, a5, a6, a7⟩ :=
    applyActions_fields (spanOpen st.currentSpan name attrs fS fT wS pS).1
      acts
  refine ⟨by simp [set_status_eq], by simp [set_status_eq], ?_, ?_,
    finalSpan name attrs recE fS fT wS pS acts (Except.ok a) wE pE
      st.currentSpan, ?_, ?_, h5, h6⟩
  · rw [a5]; simp [spanOpen, mkSpan]
  · rw [a6]; simp [spanOpen, mkSpan]
  · rw [traceSpan_eq]; simp [Span.save]
  · exact finalSpan_ok_status name attrs recE fS fT wS pS acts a wE pE
      st.currentSpan

/-- C5: a backend failure at insert time (missing driver / failed
connection, or a raising INSERT) never reaches the traced operation: the
body's outcome is returned unchanged, the span row is lost, and a log entry
is written instead. -/
theorem C5_insert_failure_never_propagates {α : Type} (name : String)
    (attrs : Option Attrs) (recE : Bool) (fS fT wS : Nat) (pS : ℚ)
    (acts : List SpanAction) (outcome : Except Exc α) (wE : Nat) (pE : ℚ)
    (be : Backend) (st : TraceCtx) (hbe : be ≠ .ok) :
    (traceSpan name attrs recE fS fT wS pS acts outcome wE pE true be
      st).1 = outcome ∧
    (traceSpan name attrs recE fS fT wS pS acts outcome wE pE true be
      st).2.db = st.db ∧
    ∃ m : String,
      (traceSpan name attrs recE fS fT wS pS acts outcome wE pE true be
        st).2.log = st.log ++ [m] := by
  cases be with
  | ok => exact absurd rfl hbe
  | noConn =>
      rw [traceSpan_eq]
      exact ⟨rfl, rfl, "DuckDB not installed. Traces will not be stored.",
        rfl⟩
  | insertFail =>
      rw [traceSpan_eq]
      exact ⟨rfl, rfl, "Failed to save span", rfl⟩

/-- C5 witness: the theorem applied at a concrete scope whose INSERT
fails. -/
theorem C5_witness :
    (traceSpan "op" none true 1 101 0 0 [] (Except.ok 7 : Except Exc Nat)
      1 1 true .insertFail ⟨none, [], []⟩).1 = Except.ok 7 ∧
    (traceSpan "op" none true 1 101 0 0 [] (Except.ok 7 : Except Exc Nat)
      1 1 true .insertFail ⟨none, [], []⟩).2.db = [] ∧
    ∃ m : String,
      (traceSpan "op" none true 1 101 0 0 [] (Except.ok 7 : Except Exc Nat)
        1 1 true .insertFail ⟨none, [], []⟩).2.log = [] ++ [m] :=
  C5_insert_failure_never_propagates "op" none true 1 101 0 0 []
    (Except.ok 7) 1 1 .insertFail ⟨none, [], []⟩ (by simp)

/-- C6 counterexample: a failing read (malformed SQL) is NOT surfaced to
the analytics caller — `query_traces` catches it and returns `[]`, an
answer indistinguishable from querying an empty store. -/
theorem C6_cex_read_failure_absorbed :
    (query_traces (ReadBackend.fails "Parser Error: syntax error")
      ([] : List String)).1 = ([] : List Span) ∧
    (query_traces (ReadBackend.fails "Parser Error: syntax error")
        ([] : List String)).1
      = (query_traces (ReadBackend.ok ([] : List Span)) []).1 := by
  exact ⟨rfl, rfl⟩

/-- C6 amended: a malformed query or unreachable backend at read time is
logged and absorbed: every analytics read built on `query_traces` returns
the empty result (and `get_stats` consequently an empty record), never an
explicit error to the caller. -/
theorem C6_read_failures_logged_and_absorbed (msg : String)
    (log : List String) :
    (query_traces (ReadBackend.fails msg) log).1 = ([] : List Span) ∧
    (query_traces (ReadBackend.fails msg : ReadBackend Span) log).2
      = log ++ ["Query failed: " ++ msg] ∧
    (query_traces (ReadBackend.noConn : ReadBackend Span) log).1 = [] ∧
    (query_traces (ReadBackend.noConn : ReadBackend Span) log).2 = log := by
  exact ⟨rfl, rfl, rfl, rfl⟩

/-- C8: with a live connection, retention cleanup keeps exactly the spans
whose `start_time` is not older than the cutoff, leaves them in order and
untouched (a sublist of the original table), and a second run with the same
cutoff deletes nothing further. -/
theorem C8_retention_cleanup_exact_and_idempotent (cutoff : Nat)
    (db : List Span) (log : List String) :
    (∀ s : Span,
      s ∈ (cleanup_old_traces true cutoff db log).1
        ↔ s ∈ db ∧ ¬ s.start_time < cutoff) ∧
    (cleanup_old_traces true cutoff db log).1.Sublist db ∧
    (cleanup_old_traces true cutoff
        (cleanup_old_traces true cutoff db log).1
        (cleanup_old_traces true cutoff db log).2).1
      = (cleanup_old_traces true cutoff db log).1 := by
  refine ⟨?_, ?_, ?_⟩
  · intro s
    simp [cleanup_old_traces, List.mem_filter]
  · simp only [cleanup_old_traces, if_pos]
    exact List.filter_sublist db
  · simp [cleanup_old_traces, List.filter_filter]

/-- C9: the source keeps `_current_span` in a single process-wide module
global (the comment on line 170 says "Thread-local" but no
`threading.local` is used, and `trace_span` writes it with `global`), so a
top-level scope opened by thread 2 while thread 1's span is current
observes thread 1's span: it inherits thread 1's trace id — not its own
freshly generated one, 102 — and is parented under thread 1's span,
violating per-context isolation and trace-id distinctness. -/
theorem C9_shared_global_leaks_across_threads :
    (spanOpen (spanOpen none "thread1.op" none 1 101 0 0).2 "thread2.op"
        none 2 102 0 0).1.trace_id
      = (spanOpen none "thread1.op" none 1 101 0 0).1.trace_id ∧
    (spanOpen (spanOpen none "thread1.op" none 1 101 0 0).2 "thread2.op"
        none 2 102 0 0).1.parent_span_id
      = some (spanOpen none "thread1.op" none 1 101 0 0).1.span_id ∧
    (spanOpen (spanOpen none "thread1.op" none 1 101 0 0).2 "thread2.op"
        none 2 102 0 0).1.trace_id ≠ 102 := by
  refine ⟨rfl, rfl, by decide⟩

/-- C10: `set_status` with an absent or empty message updates the status
and leaves `error_message` untouched; in particular an error message
recorded by `record_exception` survives a later `set_status("OK")`. -/
theorem C10_set_status_keeps_error_message (s : Span) (status : String)
    (m : Option String) (e : Exc) (hm : m = none ∨ m = some "") :
    (s.set_status status m).status = status ∧
    (s.set_status status m).error_message = s.error_message ∧
    ((s.record_exception e).set_status "OK" none).status = "OK" ∧
    ((s.record_exception e).set_status "OK" none).error_message
      = some e.msg := by
  rcases hm with rfl | rfl <;>
    simp [set_status_eq, Span.record_exception]

/-- C10 witness: the theorem applied to a concrete span carrying a recorded
error message. -/
theorem C10_witness :
    ((mkSpan "op" none none none 1 101 0 0).set_status "OK" none).status
      = "OK" ∧
    ((mkSpan "op" none none none 1 101 0 0).set_status "OK"
      none).error_message = none ∧
    (((mkSpan "op" none none none 1 101 0 0).record_exception
      ⟨"E", "boom"⟩).set_status "OK" none).status = "OK" ∧
    (((mkSpan "op" none none none 1 101 0 0).record_exception
      ⟨"E", "boom"⟩).set_status "OK" none).error_message = some "boom" := by
  have h := C10_set_status_keeps_error_message
    (mkSpan "op" none none none 1 101 0 0) "OK" none ⟨"E", "boom"⟩
    (Or.inl rfl)
  exact ⟨h.1, h.2.1.trans rfl, h.2.2.1, h.2.2.2⟩

/-! ### Percentile interpolation lemmas (for C7) -/

/-- Monotone access into a sorted list of durations. -/
theorem sorted_getD_mono (s : List ℚ) (hs : s.Sorted (· ≤ ·)) {i j : ℕ}
    (hij : i ≤ j) (hj : j < s.length) : s.getD i 0 ≤ s.getD j 0 := by
  have hi : i < s.length := lt_of_le_of_lt hij hj
  rw [List.getD_eq_getElem s 0 hi, List.getD_eq_getElem s 0 hj]
  have h := hs.rel_get_of_le (a := ⟨i, hi⟩) (b := ⟨j, hj⟩)
    (Fin.mk_le_mk.mpr hij)
  simpa using h

/-- For a nonnegative rank, the floor index sits at or below the rank. -/
theorem floor_toNat_le (h : ℚ) (h0 : 0 ≤ h) : ((⌊h⌋.toNat : ℕ) : ℚ) ≤ h := by
  have h2 : ((⌊h⌋.toNat : ℕ) : ℤ) = ⌊h⌋ :=
    Int.toNat_of_nonneg (Int.floor_nonneg.mpr h0)
  have h3 : ((⌊h⌋.toNat : ℕ) : ℚ) = ((⌊h⌋ : ℤ) : ℚ) := by
    exact_mod_cast h2
  rw [h3]
  exact Int.floor_le h

/-- A rank lies strictly below its floor index plus one. -/
theorem lt_floor_toNat_add_one (h : ℚ) (h0 : 0 ≤ h) :
    h < ((⌊h⌋.toNat : ℕ) : ℚ) + 1 := by
  have h2 : ((⌊h⌋.toNat : ℕ) : ℤ) = ⌊h⌋ :=
    Int.toNat_of_nonneg (Int.floor_nonneg.mpr h0)
  have h3 : ((⌊h⌋.toNat : ℕ) : ℚ) = ((⌊h⌋ : ℤ) : ℚ) := by
    exact_mod_cast h2
  rw [h3]
  exact Int.lt_floor_add_one h

/-- A rank bounded by `n - 1` has its floor index bounded by `n - 1`. -/
theorem toNat_floor_le_pred (s : List ℚ) (hne : s ≠ []) (h : ℚ) (h0 : 0 ≤ h)
    (hub : h ≤ (s.length : ℚ) - 1) : ⌊h⌋.toNat ≤ s.length - 1 := by
  have hn : 1 ≤ s.length := List.length_pos.mpr hne
  have h1 : ((⌊h⌋.toNat : ℕ) : ℚ) ≤ (s.length : ℚ) - 1 :=
    le_trans (floor_toNat_le h h0) hub
  have h2 : ((s.length - 1 : ℕ) : ℚ) = (s.length : ℚ) - 1 := by
    rw [Nat.cast_sub hn]
    norm_num
  rw [← h2] at h1
  exact_mod_cast h1

/-- Interpolation never drops below the lower sample of its segment. -/
theorem percAt_lower (s : List ℚ) (hs : s.Sorted (· ≤ ·)) (hne : s ≠ [])
    (h : ℚ) (h0 : 0 ≤ h) (hub : h ≤ (s.length : ℚ) - 1) :
    s.getD (⌊h⌋.toNat) 0 ≤ percAt s h := by
  have hn : 0 < s.length := List.length_pos.mpr hne
  have hipred : ⌊h⌋.toNat ≤ s.length - 1 := toNat_floor_le_pred s hne h h0 hub
  simp only [percAt]
  by_cases hcase : ⌊h⌋.toNat + 1 < s.length
  · rw [if_pos hcase]
    have ht : 0 ≤ h - ((⌊h⌋.toNat : ℕ) : ℚ) :=
      sub_nonneg.mpr (floor_toNat_le h h0)
    have hd : 0 ≤ s.getD (⌊h⌋.toNat + 1) 0 - s.getD (⌊h⌋.toNat) 0 :=
      sub_nonneg.mpr (sorted_getD_mono s hs (Nat.le_succ _) hcase)
    nlinarith [mul_nonneg ht hd]
  · rw [if_neg hcase]
    exact sorted_getD_mono s hs hipred (Nat.sub_lt hn one_pos)

/-- Interpolation never exceeds the last (largest) sorted sample. -/
theorem percAt_upper (s : List ℚ) (hs : s.Sorted (· ≤ ·)) (hne : s ≠ [])
    (h : ℚ) (h0 : 0 ≤ h) (_hub : h ≤ (s.length : ℚ) - 1) :
    percAt s h ≤ s.getD (s.length - 1) 0 := by
  have hn : 0 < s.length := List.length_pos.mpr hne
  simp only [percAt]
  by_cases hcase : ⌊h⌋.toNat + 1 < s.length
  · rw [if_pos hcase]
    have ht1 : h - ((⌊h⌋.toNat : ℕ) : ℚ) ≤ 1 := by
      have := lt_floor_toNat_add_one h h0
      linarith
    have hd : 0 ≤ s.getD (⌊h⌋.toNat + 1) 0 - s.getD (⌊h⌋.toNat) 0 :=
      sub_nonneg.mpr (sorted_getD_mono s hs (Nat.le_succ _) hcase)
    have hstep : s.getD (⌊h⌋.toNat) 0
        + (h - ((⌊h⌋.toNat : ℕ) : ℚ))
          * (s.getD (⌊h⌋.toNat + 1) 0 - s.getD (⌊h⌋.toNat) 0)
        ≤ s.getD (⌊h⌋.toNat + 1) 0 := by
      nlinarith [mul_nonneg (by linarith : (0:ℚ) ≤ 1
        - (h - ((⌊h⌋.toNat : ℕ) : ℚ))) hd]
    exact hstep.trans (sorted_getD_mono s hs (Nat.le_pred_of_lt hcase)
      (Nat.sub_lt hn one_pos))
  · rw [if_neg hcase]

/-- Interpolation is monotone in the rank over a sorted sample. -/
theorem percAt_mono (s : List ℚ) (hs : s.Sorted (· ≤ ·)) (hne : s ≠ [])
    {h₁ h₂ : ℚ} (h0 : 0 ≤ h₁) (h12 : h₁ ≤ h₂)
    (hub : h₂ ≤ (s.length : ℚ) - 1) : percAt s h₁ ≤ percAt s h₂ := by
  have h0' : 0 ≤ h₂ := h0.trans h12
  have hub1 : h₁ ≤ (s.length : ℚ) - 1 := h12.trans hub
  have hn : 0 < s.length := List.length_pos.mpr hne
  have hii : ⌊h₁⌋.toNat ≤ ⌊h₂⌋.toNat :=
    Int.toNat_le_toNat (Int.floor_le_floor h12)
  by_cases heq : ⌊h₁⌋.toNat = ⌊h₂⌋.toNat
  · simp only [percAt, heq]
    by_cases hcase : ⌊h₂⌋.toNat + 1 < s.length
    · rw [if_pos hcase, if_pos hcase]
      have hd : 0 ≤ s.getD (⌊h₂⌋.toNat + 1) 0 - s.getD (⌊h₂⌋.toNat) 0 :=
        sub_nonneg.mpr (sorted_getD_mono s hs (Nat.le_succ _) hcase)
      nlinarith [mul_le_mul_of_nonneg_right
        (sub_le_sub_right h12 ((⌊h₂⌋.toNat : ℕ) : ℚ)) hd]
    · rw [if_neg hcase, if_neg hcase]
  · have hlt : ⌊h₁⌋.toNat < ⌊h₂⌋.toNat := lt_of_le_of_ne hii heq
    have hi2pred : ⌊h₂⌋.toNat ≤ s.length - 1 :=
      toNat_floor_le_pred s hne h₂ h0' hub
    have hcase1 : ⌊h₁⌋.toNat + 1 < s.length := by omega
    have hA : percAt s h₁ ≤ s.getD (⌊h₁⌋.toNat + 1) 0 := by
      simp only [percAt]
      rw [if_pos hcase1]
      have ht1 : h₁ - ((⌊h₁⌋.toNat : ℕ) : ℚ) ≤ 1 := by
        have := lt_floor_toNat_add_one h₁ h0
        linarith
      have hd : 0 ≤ s.getD (⌊h₁⌋.toNat + 1) 0 - s.getD (⌊h₁⌋.toNat) 0 :=
        sub_nonneg.mpr (sorted_getD_mono s hs (Nat.le_succ _) hcase1)
      nlinarith [mul_nonneg (by linarith : (0:ℚ) ≤ 1
        - (h₁ - ((⌊h₁⌋.toNat : ℕ) : ℚ))) hd]
    have hB : s.getD (⌊h₁⌋.toNat + 1) 0 ≤ s.getD (⌊h₂⌋.toNat) 0 :=
      sorted_getD_mono s hs (Nat.succ_le_of_lt hlt) (by omega)
    have hC : s.getD (⌊h₂⌋.toNat) 0 ≤ percAt s h₂ :=
      percAt_lower s hs hne h₂ h0' hub
    exact hA.trans (hB.trans hC)

/-- `PERCENTILE_CONT` is monotone in the requested percentile. -/
theorem percentileCont_mono (s : List ℚ) (hs : s.Sorted (· ≤ ·))
    (hne : s ≠ []) {p₁ p₂ : ℚ} (hp0 : 0 ≤ p₁) (hpp : p₁ ≤ p₂)
    (hp1 : p₂ ≤ 1) : percentileCont s p₁ ≤ percentileCont s p₂ := by
  have hn : 0 < s.length := List.length_pos.mpr hne
  have hn1 : (0:ℚ) ≤ (s.length : ℚ) - 1 := by
    have h1 : (1:ℚ) ≤ (s.length : ℚ) := by exact_mod_cast hn
    linarith
  apply percAt_mono s hs hne (mul_nonneg hp0 hn1)
    (mul_le_mul_of_nonneg_right hpp hn1)
  calc p₂ * ((s.length : ℚ) - 1)
      ≤ 1 * ((s.length : ℚ) - 1) := mul_le_mul_of_nonneg_right hp1 hn1
    _ = (s.length : ℚ) - 1 := one_mul _

/-- `PERCENTILE_CONT` never exceeds the last sorted sample. -/
theorem percentileCont_le_last (s : List ℚ) (hs : s.Sorted (· ≤ ·))
    (hne : s ≠ []) {p : ℚ} (hp0 : 0 ≤ p) (hp1 : p ≤ 1) :
    percentileCont s p ≤ s.getD (s.length - 1) 0 := by
  have hn : 0 < s.length := List.length_pos.mpr hne
  have hn1 : (0:ℚ) ≤ (s.length : ℚ) - 1 := by
    have h1 : (1:ℚ) ≤ (s.length : ℚ) := by exact_mod_cast hn
    linarith
  apply percAt_upper s hs hne _ (mul_nonneg hp0 hn1)
  calc p * ((s.length : ℚ) - 1)
      ≤ 1 * ((s.length : ℚ) - 1) := mul_le_mul_of_nonneg_right hp1 hn1
    _ = (s.length : ℚ) - 1 := one_mul _

/-- Every sample is bounded by the SQL `MAX` of its list. -/
theorem le_listMax (l : List ℚ) (x : ℚ) (hx : x ∈ l) : x ≤ listMax l := by
  induction l with
  | nil => cases hx
  | cons a t ih =>
      cases t with
      | nil =>
          rw [List.mem_singleton] at hx
          simp [listMax, hx]
      | cons b u =>
          rcases List.mem_cons.mp hx with rfl | hmem
          · simp [listMax]
          · exact le_trans (ih hmem) (by simp [listMax])

/-- C7: over any non-empty window, the statistics satisfy
`p50 ≤ p95 ≤ p99 ≤ max`, with each percentile computed by linear
interpolation over the sorted durations. -/
theorem C7_percentiles_ordered (spans : List (String × ℚ))
    (hne : spans ≠ []) :
    (get_stats spans).p50_ms ≤ (get_stats spans).p95_ms ∧
    (get_stats spans).p95_ms ≤ (get_stats spans).p99_ms ∧
    (get_stats spans).p99_ms ≤ (get_stats spans).max_duration_ms := by
  have e50 : (get_stats spans).p50_ms
      = percentileCont (List.insertionSort (· ≤ ·)
          (spans.map fun r => r.2)) (1 / 2) := rfl
  have e95 : (get_stats spans).p95_ms
      = percentileCont (List.insertionSort (· ≤ ·)
          (spans.map fun r => r.2)) (19 / 20) := rfl
  have e99 : (get_stats spans).p99_ms
      = percentileCont (List.insertionSort (· ≤ ·)
          (spans.map fun r => r.2)) (99 / 100) := rfl
  have emax : (get_stats spans).max_duration_ms
      = listMax (spans.map fun r => r.2) := rfl
  rw [e50, e95, e99, emax]
  have hdne : (spans.map fun r => r.2) ≠ [] := by
    intro hcon
    exact hne (List.map_eq_nil_iff.mp hcon)
  have hs : (List.insertionSort (· ≤ ·)
      (spans.map fun r => r.2)).Sorted (· ≤ ·) :=
    List.sorted_insertionSort (· ≤ ·) (spans.map fun r => r.2)
  have hperm := List.perm_insertionSort (· ≤ ·) (spans.map fun r => r.2)
  have hsne : List.insertionSort (· ≤ ·) (spans.map fun r => r.2) ≠ [] := by
    intro hcon
    rw [hcon] at hperm
    exact hdne (hperm.symm.eq_nil)
  refine ⟨percentileCont_mono _ hs hsne (by norm_num) (by norm_num)
      (by norm_num),
    percentileCont_mono _ hs hsne (by norm_num) (by norm_num) (by norm_num),
    ?_⟩
  have h1 : percentileCont (List.insertionSort (· ≤ ·)
      (spans.map fun r => r.2)) (99 / 100)
      ≤ (List.insertionSort (· ≤ ·) (spans.map fun r => r.2)).getD
          ((List.insertionSort (· ≤ ·) (spans.map fun r => r.2)).length - 1)
          0 :=
    percentileCont_le_last _ hs hsne (by norm_num) (by norm_num)
  have hlen : (List.insertionSort (· ≤ ·)
      (spans.map fun r => r.2)).length - 1
      < (List.insertionSort (· ≤ ·) (spans.map fun r => r.2)).length :=
    Nat.sub_lt (List.length_pos.mpr hsne) one_pos
  have h2 : (List.insertionSort (· ≤ ·) (spans.map fun r => r.2)).getD
      ((List.insertionSort (· ≤ ·) (spans.map fun r => r.2)).length - 1) 0
      ∈ List.insertionSort (· ≤ ·) (spans.map fun r => r.2) := by
    rw [List.getD_eq_getElem _ 0 hlen]
    exact List.getElem_mem hlen
  have h3 : (List.insertionSort (· ≤ ·) (spans.map fun r => r.2)).getD
      ((List.insertionSort (· ≤ ·) (spans.map fun r => r.2)).length - 1) 0
      ∈ spans.map fun r => r.2 := hperm.mem_iff.mp h2
  exact h1.trans (le_listMax _ _ h3)

/-- C7 witness: the ordering instantiated on a concrete two-span window. -/
theorem C7_witness :
    (get_stats [("OK", (5:ℚ)), ("ERROR", 3)]).p50_ms
      ≤ (get_stats [("OK", (5:ℚ)), ("ERROR", 3)]).p95_ms ∧
    (get_stats [("OK", (5:ℚ)), ("ERROR", 3)]).p95_ms
      ≤ (get_stats [("OK", (5:ℚ)), ("ERROR", 3)]).p99_ms ∧
    (get_stats [("OK", (5:ℚ)), ("ERROR", 3)]).p99_ms
      ≤ (get_stats [("OK", (5:ℚ)), ("ERROR", 3)]).max_duration_ms :=
  C7_percentiles_ordered [("OK", (5:ℚ)), ("ERROR", 3)] (by simp)

end Engram
